import Mathlib

/-!
Verification of the MCP agent orchestrator core: the data records
(TaskResult / AgentReport / PipelineResult), the agent `executeTask` /
`generateReport` contract (APIAgent, MobileAgent, WireMockAgent,
HeadSpinAgent), the ReportGenerator (summary file + tracker sync), and
`MCPAgentOrchestrator` (task table, sequential dispatch, status
aggregation).

The TypeScript source is embedded shallowly. Effects are made explicit:
each task body performs I/O (child-process calls, network, timers), so a
task execution is parametrised by a `TaskRun` carrying the outcome the
body would produce (a result string, or a thrown error message) together
with the measured wall-clock duration; the filesystem operations of the
report generator are parametrised by an `FsEnv` carrying the outcome of
`mkdir`/`writeFile` and the clock value `Date.now()` observed when the
report filename is built. Fallible operations return `Except String α`
(`Except.error` = a rejected promise carrying the error message).
-/

/-- enums.ts `EventType` (dev_event / ci_event / pr_event). -/
inductive EventType where
  | dev_event
  | ci_event
  | pr_event
deriving DecidableEq

/-- enums.ts `AgentType`. -/
inductive AgentType where
  | api_agent
  | mobile_agent
  | wiremock_agent
deriving DecidableEq

/-- enums.ts `TaskStatus` (pending / running / completed / failed). -/
inductive TaskStatus where
  | pending
  | running
  | completed
  | failed
deriving DecidableEq

/-- interfaces.ts `TaskResult`. `duration` (seconds, a JS number) is
modelled as a `Nat`; `error?` is modelled as `Option String`. -/
structure TaskResult where
  taskName : String
  status : TaskStatus
  output : String
  duration : Nat
  error : Option String
deriving DecidableEq

/-- interfaces.ts `CIPipelineEvent`; `timestamp : Date` is a clock value
modelled as `Nat`, `metadata : Record<string, any>` as an association
list. -/
structure CIPipelineEvent where
  eventType : EventType
  timestamp : Nat
  branch : String
  commitHash : String
  author : String
  metadata : List (String × String)
deriving DecidableEq

/-- interfaces.ts `AgentReport`. -/
structure AgentReport where
  agentType : AgentType
  totalTests : Nat
  passedTests : Nat
  failedTests : Nat
  testResults : List TaskResult
deriving DecidableEq

/-- interfaces.ts `PipelineResult`; `agentReports : Record<string, AgentReport>`
is modelled as an association list in insertion order. -/
structure PipelineResult where
  event : CIPipelineEvent
  taskResults : List TaskResult
  agentReports : List (String × AgentReport)
  generatedReports : List String
  pipelineStatus : String
deriving DecidableEq

/-- BaseAgent.createTaskResult: builds the record field by field
(the success call sites omit `error`, i.e. pass `none`). -/
def createTaskResult (taskName : String) (status : TaskStatus) (output : String)
    (duration : Nat) (error : Option String) : TaskResult :=
  { taskName := taskName, status := status, output := output,
    duration := duration, error := error }

/-- One I/O-dependent run of a task body: `outcome` is what the body
passed to `measureExecutionTime` would do (return a result string, or
throw with a message); `elapsed` is the duration the wall clock measures
for it. -/
structure TaskRun where
  outcome : Except String String
  elapsed : Nat

/-- The `switch (task)` dispatch inside APIAgent.executeTask:
`postman_tests` and `api_validation` run their I/O bodies
(`runPostmanTests` / `validateApiEndpoints`, modelled by the
environment-supplied `run.outcome`); any other task name throws
"Unknown task: " + task. -/
def APIAgent.dispatch (task : String) (run : TaskRun) : Except String String :=
  match task with
  | "postman_tests" => run.outcome
  | "api_validation" => run.outcome
  | _ => Except.error ("Unknown task: " ++ task)

/-- APIAgent.executeTask: try the dispatched body; on success push and
return a COMPLETED result with the body's output and measured duration;
on any caught exception push and return a FAILED result with empty
output, zero duration and the error message. Returns the produced
TaskResult together with the updated `testResults` history. -/
def APIAgent.executeTask (task : String) (run : TaskRun)
    (testResults : List TaskResult) : TaskResult × List TaskResult :=
  match APIAgent.dispatch task run with
  | Except.ok result =>
      let taskResult := createTaskResult task TaskStatus.completed result run.elapsed none
      (taskResult, testResults ++ [taskResult])
  | Except.error e =>
      let taskResult := createTaskResult task TaskStatus.failed "" 0 (some e)
      (taskResult, testResults ++ [taskResult])

/-- The `switch (task)` dispatch inside MobileAgent.executeTask. -/
def MobileAgent.dispatch (task : String) (run : TaskRun) : Except String String :=
  match task with
  | "appium_tests" => run.outcome
  | "webdriver_tests" => run.outcome
  | _ => Except.error ("Unknown task: " ++ task)

/-- MobileAgent.executeTask: same try/catch shape as APIAgent, except
that the catch branch pushes first and then returns
`testResults[testResults.length - 1]` (the last element, modelled with
`getLastD`). -/
def MobileAgent.executeTask (task : String) (run : TaskRun)
    (testResults : List TaskResult) : TaskResult × List TaskResult :=
  match MobileAgent.dispatch task run with
  | Except.ok result =>
      let taskResult := createTaskResult task TaskStatus.completed result run.elapsed none
      (taskResult, testResults ++ [taskResult])
  | Except.error e =>
      let taskResult := createTaskResult task TaskStatus.failed "" 0 (some e)
      let newResults := testResults ++ [taskResult]
      (newResults.getLastD taskResult, newResults)

/-- The `switch (task)` dispatch inside WireMockAgent.executeTask. -/
def WireMockAgent.dispatch (task : String) (run : TaskRun) : Except String String :=
  match task with
  | "wiremock_tests" => run.outcome
  | "mock_validation" => run.outcome
  | _ => Except.error ("Unknown task: " ++ task)

/-- WireMockAgent.executeTask (same shape as APIAgent.executeTask). -/
def WireMockAgent.executeTask (task : String) (run : TaskRun)
    (testResults : List TaskResult) : TaskResult × List TaskResult :=
  match WireMockAgent.dispatch task run with
  | Except.ok result =>
      let taskResult := createTaskResult task TaskStatus.completed result run.elapsed none
      (taskResult, testResults ++ [taskResult])
  | Except.error e =>
      let taskResult := createTaskResult task TaskStatus.failed "" 0 (some e)
      (taskResult, testResults ++ [taskResult])

/-- The `switch (task)` dispatch inside HeadSpinAgent.executeTask. -/
def HeadSpinAgent.dispatch (task : String) (run : TaskRun) : Except String String :=
  match task with
  | "headspin_ios_smoke" => run.outcome
  | _ => Except.error ("Unknown task: " ++ task)

/-- HeadSpinAgent.executeTask (same shape as APIAgent.executeTask). -/
def HeadSpinAgent.executeTask (task : String) (run : TaskRun)
    (testResults : List TaskResult) : TaskResult × List TaskResult :=
  match HeadSpinAgent.dispatch task run with
  | Except.ok result =>
      let taskResult := createTaskResult task TaskStatus.completed result run.elapsed none
      (taskResult, testResults ++ [taskResult])
  | Except.error e =>
      let taskResult := createTaskResult task TaskStatus.failed "" 0 (some e)
      (taskResult, testResults ++ [taskResult])

/-- The concrete agent classes of the repository. -/
inductive AgentKind where
  | api
  | mobile
  | wiremock
  | headspin
deriving DecidableEq

/-- The task names each agent's `switch` recognizes (the non-default
cases, in source order). -/
def recognizedTasks : AgentKind → List String
  | AgentKind.api => ["postman_tests", "api_validation"]
  | AgentKind.mobile => ["appium_tests", "webdriver_tests"]
  | AgentKind.wiremock => ["wiremock_tests", "mock_validation"]
  | AgentKind.headspin => ["headspin_ios_smoke"]

/-- The dispatch switch of the given agent class. -/
def agentDispatch : AgentKind → String → TaskRun → Except String String
  | AgentKind.api => APIAgent.dispatch
  | AgentKind.mobile => MobileAgent.dispatch
  | AgentKind.wiremock => WireMockAgent.dispatch
  | AgentKind.headspin => HeadSpinAgent.dispatch

/-- `executeTask` of the given agent class. -/
def agentExecuteTask : AgentKind → String → TaskRun → List TaskResult → TaskResult × List TaskResult
  | AgentKind.api => APIAgent.executeTask
  | AgentKind.mobile => MobileAgent.executeTask
  | AgentKind.wiremock => WireMockAgent.executeTask
  | AgentKind.headspin => HeadSpinAgent.executeTask

/-- The (textually identical) body of `generateReport` in APIAgent,
MobileAgent, WireMockAgent and HeadSpinAgent: derives the report from
the accumulated `testResults` history; `passedTests` counts COMPLETED
results, `failedTests := totalTests - passedTests`. -/
def generateReportImpl (agentType : AgentType) (testResults : List TaskResult) : AgentReport :=
  let totalTests := testResults.length
  let passedTests := (testResults.filter (fun r => r.status == TaskStatus.completed)).length
  { agentType := agentType, totalTests := totalTests, passedTests := passedTests,
    failedTests := totalTests - passedTests, testResults := testResults }

/-- APIAgent.generateReport. -/
def APIAgent.generateReport : List TaskResult → AgentReport :=
  generateReportImpl AgentType.api_agent

/-- MobileAgent.generateReport. -/
def MobileAgent.generateReport : List TaskResult → AgentReport :=
  generateReportImpl AgentType.mobile_agent

/-- WireMockAgent.generateReport. -/
def WireMockAgent.generateReport : List TaskResult → AgentReport :=
  generateReportImpl AgentType.wiremock_agent

/-- HeadSpinAgent.generateReport (HeadSpinAgent registers itself as a
MOBILE_AGENT). -/
def HeadSpinAgent.generateReport : List TaskResult → AgentReport :=
  generateReportImpl AgentType.mobile_agent

/-- `generateReport` of the given agent class. -/
def agentGenerateReport : AgentKind → List TaskResult → AgentReport
  | AgentKind.api => APIAgent.generateReport
  | AgentKind.mobile => MobileAgent.generateReport
  | AgentKind.wiremock => WireMockAgent.generateReport
  | AgentKind.headspin => HeadSpinAgent.generateReport

/-- Filesystem/clock environment of one ReportGenerator.generateAllureReport
call: outcome of `fs.mkdir` and `fs.writeFile`, and the `Date.now()`
value observed when the filename is built. -/
structure FsEnv where
  mkdirResult : Except String Unit
  writeResult : Except String Unit
  now : Nat

/-- The summary object serialized into the report file (`data` in
ReportGenerator.generateAllureReport); its `timestamp` field is the
current clock value (an ISO string in the source). -/
structure AllureSummary where
  timestamp : Nat
  totalTests : Nat
  passed : Nat
  failed : Nat
  results : List TaskResult
deriving DecidableEq

/-- The report file location:
`path.join(outputDir, "allure-report-" + Date.now() + ".json")`. -/
def ReportGenerator.allureFilePath (outputDir : String) (now : Nat) : String :=
  outputDir ++ "/allure-report-" ++ Nat.repr now ++ ".json"

/-- The `data` summary written into the report file. -/
def ReportGenerator.allureSummaryData (testResults : List TaskResult) (now : Nat) : AllureSummary :=
  { timestamp := now
    totalTests := testResults.length
    passed := (testResults.filter (fun r => r.status == TaskStatus.completed)).length
    failed := (testResults.filter (fun r => r.status == TaskStatus.failed)).length
    results := testResults }

/-- ReportGenerator.generateAllureReport: awaits `fs.mkdir` (recursive),
builds the timestamped file path, awaits `fs.writeFile` with the
serialized summary, and returns the file path. A failure of either
filesystem operation is not caught and rejects the promise. -/
def ReportGenerator.generateAllureReport (testResults : List TaskResult)
    (outputDir : String) (fs : FsEnv) : Except String String :=
  match fs.mkdirResult with
  | Except.error e => Except.error e
  | Except.ok _ =>
    let filePath := ReportGenerator.allureFilePath outputDir fs.now
    let _data := ReportGenerator.allureSummaryData testResults fs.now
    match fs.writeResult with
    | Except.error e => Except.error e
    | Except.ok _ => Except.ok filePath

/-- ReportGenerator.syncWithZephyrJira: filters the FAILED results; if
there is at least one (`if (failed.length)`), returns the
"Mock: Synced N failed test(s) with Jira." message, else the
"No issues to sync" message. -/
def ReportGenerator.syncWithZephyrJira (testResults : List TaskResult) : String :=
  let failed := testResults.filter (fun r => r.status == TaskStatus.failed)
  if failed.length ≠ 0 then
    "Mock: Synced " ++ Nat.repr failed.length ++ " failed test(s) with Jira."
  else
    "No issues to sync with Jira/Zephyr - all tests passed!"

/-- MCPAgentOrchestrator.getTasksForEvent: the `switch (event.eventType)`
in which the CI_EVENT / PR_EVENT / DEV_EVENT cases all fall through to
`default`, returning one fixed agent-to-task-list table. -/
def MCPAgentOrchestrator.getTasksForEvent (event : CIPipelineEvent) :
    List (String × List String) :=
  match event.eventType with
  | _ =>
    [("api_agent", ["postman_tests", "api_validation"]),
     ("mobile_agent", ["appium_tests", "webdriver_tests"]),
     ("wiremock_agent", ["wiremock_tests", "wiremock_tests"])]

/-- MCPAgentOrchestrator.getPipelineStatus. -/
def MCPAgentOrchestrator.getPipelineStatus (taskResults : List TaskResult) : String :=
  if taskResults.any (fun r => r.status == TaskStatus.failed) then "FAILED"
  else if taskResults.all (fun r => r.status == TaskStatus.completed) then "SUCCESS"
  else "INCOMPLETE"

/-- The private `testResults` histories of the three agents the
orchestrator constructor registers (`api_agent`, `mobile_agent`,
`wiremock_agent`, in insertion order). -/
structure AgentsState where
  apiResults : List TaskResult
  mobileResults : List TaskResult
  wiremockResults : List TaskResult
deriving DecidableEq

/-- One loop iteration of processEvent: look up `this.agents[agentName]`
and call its `executeTask`. `none` models the TypeError thrown when the
agent name is not a key of the registry (the lookup yields `undefined`). -/
def orchestratorStep (agentName task : String) (run : TaskRun) (s : AgentsState) :
    Option (TaskResult × AgentsState) :=
  match agentName with
  | "api_agent" =>
      let p := APIAgent.executeTask task run s.apiResults
      some (p.1, { s with apiResults := p.2 })
  | "mobile_agent" =>
      let p := MobileAgent.executeTask task run s.mobileResults
      some (p.1, { s with mobileResults := p.2 })
  | "wiremock_agent" =>
      let p := WireMockAgent.executeTask task run s.wiremockResults
      some (p.1, { s with wiremockResults := p.2 })
  | _ => none

/-- The inner loop of processEvent: for one agent, execute its task list
in order, awaiting each call and pushing each result onto `allResults`
(`acc`). `idx` numbers the dispatched task executions globally so that
`runs` can supply each body's I/O outcome. -/
def runAgentTasks (agentName : String) (tasks : List String) (runs : Nat → TaskRun)
    (idx : Nat) (s : AgentsState) (acc : List TaskResult) :
    Except String (List TaskResult × AgentsState × Nat) :=
  match tasks with
  | [] => Except.ok (acc, s, idx)
  | task :: rest =>
    match orchestratorStep agentName task (runs idx) s with
    | none => Except.error ("TypeError: agent " ++ agentName ++ " is not registered")
    | some (r, s2) => runAgentTasks agentName rest runs (idx + 1) s2 (acc ++ [r])

/-- The outer loop of processEvent over `Object.entries(tasksByAgent)`. -/
def runTaskTable (table : List (String × List String)) (runs : Nat → TaskRun)
    (idx : Nat) (s : AgentsState) (acc : List TaskResult) :
    Except String (List TaskResult × AgentsState × Nat) :=
  match table with
  | [] => Except.ok (acc, s, idx)
  | (agentName, tasks) :: rest =>
    match runAgentTasks agentName tasks runs idx s acc with
    | Except.error e => Except.error e
    | Except.ok (acc2, s2, idx2) => runTaskTable rest runs idx2 s2 acc2

/-- The I/O environment of one processEvent call: the outcome of the
nth dispatched task body, and the filesystem/clock environment of the
report write. -/
structure OrchestratorEnv where
  runs : Nat → TaskRun
  fs : FsEnv

/-- MCPAgentOrchestrator.processEvent: resolve the task table, execute
every agent's tasks strictly sequentially collecting `allResults`, then
run `generateAllureReport` and `syncWithZephyrJira` on the collected
results (`Promise.all` — the pair rejects iff the report write rejects),
gather a `generateReport` snapshot from every registered agent, and
assemble the PipelineResult. `s0` is the agents' history state when the
call starts (empty lists for a fresh orchestrator). -/
def MCPAgentOrchestrator.processEvent (event : CIPipelineEvent) (env : OrchestratorEnv)
    (s0 : AgentsState) : Except String PipelineResult :=
  let tasksByAgent := MCPAgentOrchestrator.getTasksForEvent event
  match runTaskTable tasksByAgent env.runs 0 s0 [] with
  | Except.error e => Except.error e
  | Except.ok (allResults, s, _) =>
    match ReportGenerator.generateAllureReport allResults "pipeline-reports" env.fs with
    | Except.error e => Except.error e
    | Except.ok allureReport =>
      let jiraSyncResult := ReportGenerator.syncWithZephyrJira allResults
      let agentReports :=
        [("api_agent", APIAgent.generateReport s.apiResults),
         ("mobile_agent", MobileAgent.generateReport s.mobileResults),
         ("wiremock_agent", WireMockAgent.generateReport s.wiremockResults)]
      Except.ok
        { event := event
          taskResults := allResults
          agentReports := agentReports
          generatedReports := [allureReport, jiraSyncResult]
          pipelineStatus := MCPAgentOrchestrator.getPipelineStatus allResults }

/-! ## Helper lemmas -/

/-- Decimal value of a digit character. -/
def digitVal (c : Char) : Nat := c.toNat - 48

/-- Value of a decimal digit string (most significant digit first). -/
def digitsVal (l : List Char) : Nat := l.foldl (fun a c => 10 * a + digitVal c) 0

theorem digitsVal_concat (l : List Char) (c : Char) :
    digitsVal (l ++ [c]) = 10 * digitsVal l + digitVal c := by
  simp [digitsVal, List.foldl_append]

theorem digitVal_digitChar : ∀ m, m < 10 → digitVal (Nat.digitChar m) = m := by decide

theorem toDigitsCore_append (b fuel n : Nat) (ds : List Char) :
    Nat.toDigitsCore b fuel n ds = Nat.toDigitsCore b fuel n [] ++ ds := by
  induction fuel generalizing n ds with
  | zero => simp [Nat.toDigitsCore]
  | succ fuel ih =>
    simp only [Nat.toDigitsCore]
    by_cases h : n / b = 0
    · simp [h]
    · simp only [if_neg h]
      rw [ih (n / b) [Nat.digitChar (n % b)], ih (n / b) (Nat.digitChar (n % b) :: ds)]
      simp

theorem digitsVal_toDigitsCore (fuel n : Nat) (h : n < 10 ^ fuel) :
    digitsVal (Nat.toDigitsCore 10 fuel n []) = n := by
  induction fuel generalizing n with
  | zero =>
    have hn : n = 0 := by simpa using h
    subst hn
    simp [Nat.toDigitsCore, digitsVal]
  | succ fuel ih =>
    simp only [Nat.toDigitsCore]
    by_cases h0 : n / 10 = 0
    · simp only [if_pos h0]
      have hlt : n % 10 < 10 := Nat.mod_lt _ (by omega)
      have hv : digitsVal [Nat.digitChar (n % 10)] = n % 10 := by
        simpa [digitsVal] using digitVal_digitChar (n % 10) hlt
      rw [hv]
      omega
    · simp only [if_neg h0]
      rw [toDigitsCore_append, digitsVal_concat]
      have hdiv : n / 10 < 10 ^ fuel := by
        rw [Nat.div_lt_iff_lt_mul (by omega : 0 < 10)]
        calc n < 10 ^ (fuel + 1) := h
        _ = 10 ^ fuel * 10 := by ring
      rw [ih (n / 10) hdiv]
      have hlt : n % 10 < 10 := Nat.mod_lt _ (by omega)
      rw [digitVal_digitChar (n % 10) hlt]
      omega

theorem lt_ten_pow (n : Nat) : n < 10 ^ (n + 1) := by
  calc n < 2 ^ n := Nat.lt_two_pow n
  _ ≤ 2 ^ (n + 1) := Nat.pow_le_pow_right (by omega) (by omega)
  _ ≤ 10 ^ (n + 1) := Nat.pow_le_pow_left (by omega) _

theorem digitsVal_repr (n : Nat) : digitsVal (Nat.repr n).data = n := by
  show digitsVal (Nat.toDigits 10 n).asString.data = n
  have hd : (Nat.toDigits 10 n).asString.data = Nat.toDigits 10 n := rfl
  rw [hd]
  exact digitsVal_toDigitsCore (n + 1) n (lt_ten_pow n)

theorem repr_injective {m n : Nat} (h : Nat.repr m = Nat.repr n) : m = n := by
  have h2 := congrArg (fun s => digitsVal s.data) h
  simpa [digitsVal_repr] using h2

theorem syncMessage_ne (t u : String) :
    ("Mock: Synced " ++ t ++ u) ≠ "No issues to sync with Jira/Zephyr - all tests passed!" := by
  intro h
  have h2 := congrArg String.data h
  rw [String.data_append, String.data_append] at h2
  rw [List.append_assoc] at h2
  have h3 := congrArg (fun l => l.take 13) h2
  rw [show (13 : Nat) = ("Mock: Synced " : String).data.length from by decide] at h3
  simp only [List.take_left] at h3
  exact absurd h3 (by decide)

theorem unknownTask_ne_empty (task : String) : ("Unknown task: " ++ task) ≠ "" := by
  intro h
  have h2 := congrArg String.data h
  rw [String.data_append] at h2
  simp at h2

theorem length_sub_filter {α : Type} (p : α → Bool) (l : List α) :
    l.length - (l.filter p).length = (l.filter (fun a => !(p a))).length := by
  induction l with
  | nil => rfl
  | cons a l ih =>
    have hle := List.length_filter_le p l
    cases hp : p a <;> simp [List.filter_cons, hp] <;> omega

/-- The AgentType each agent class passes to the BaseAgent constructor
(HeadSpinAgent registers as MOBILE_AGENT). -/
def agentTypeOf : AgentKind → AgentType
  | AgentKind.api => AgentType.api_agent
  | AgentKind.mobile => AgentType.mobile_agent
  | AgentKind.wiremock => AgentType.wiremock_agent
  | AgentKind.headspin => AgentType.mobile_agent

/-! ## Claim theorems -/

/-- C1: `getPipelineStatus` returns "FAILED" if some result is FAILED;
returns "SUCCESS" iff every result is COMPLETED (and none is FAILED);
and returns "INCOMPLETE" otherwise. -/
theorem getPipelineStatus_spec (rs : List TaskResult) :
    ((∃ r ∈ rs, r.status = TaskStatus.failed) →
        MCPAgentOrchestrator.getPipelineStatus rs = "FAILED")
  ∧ (MCPAgentOrchestrator.getPipelineStatus rs = "SUCCESS" ↔
      ((∀ r ∈ rs, r.status = TaskStatus.completed) ∧ ∀ r ∈ rs, r.status ≠ TaskStatus.failed))
  ∧ ((¬ ∃ r ∈ rs, r.status = TaskStatus.failed) →
     (¬ ∀ r ∈ rs, r.status = TaskStatus.completed) →
        MCPAgentOrchestrator.getPipelineStatus rs = "INCOMPLETE") := by
  unfold MCPAgentOrchestrator.getPipelineStatus
  by_cases hf : rs.any (fun r => r.status == TaskStatus.failed) = true
  · rw [if_pos hf]
    have hex : ∃ r ∈ rs, r.status = TaskStatus.failed := by
      simpa [List.any_eq_true] using hf
    refine ⟨fun _ => rfl, ⟨fun h => absurd h (by decide), ?_⟩, fun hne _ => absurd hex hne⟩
    intro ⟨_, hnone⟩
    obtain ⟨r, hr, hst⟩ := hex
    exact absurd hst (hnone r hr)
  · rw [if_neg hf]
    have hnone : ∀ r ∈ rs, r.status ≠ TaskStatus.failed := by
      simp only [List.any_eq_true, beq_iff_eq, not_exists, not_and] at hf
      exact fun r hr => hf r hr
    by_cases hc : rs.all (fun r => r.status == TaskStatus.completed) = true
    · rw [if_pos hc]
      have hall : ∀ r ∈ rs, r.status = TaskStatus.completed := by
        simpa [List.all_eq_true] using hc
      refine ⟨?_, ⟨fun _ => ⟨hall, hnone⟩, fun _ => rfl⟩, fun _ hna => absurd hall hna⟩
      intro ⟨r, hr, hst⟩
      exact absurd hst (hnone r hr)
    · rw [if_neg hc]
      have hnall : ¬ ∀ r ∈ rs, r.status = TaskStatus.completed := by
        intro hall
        exact hc (by simpa [List.all_eq_true] using hall)
      refine ⟨?_, ⟨fun h => absurd h (by decide), ?_⟩, fun _ _ => rfl⟩
      · intro ⟨r, hr, hst⟩
        exact absurd hst (hnone r hr)
      · intro ⟨hall, _⟩
        exact absurd hall hnall

/-- Witness for C1 at a concrete input: a single FAILED result yields
"FAILED". -/
theorem getPipelineStatus_spec_witness :
    MCPAgentOrchestrator.getPipelineStatus
      [createTaskResult "t" TaskStatus.failed "" 0 (some "boom")] = "FAILED" :=
  (getPipelineStatus_spec _).1
    ⟨createTaskResult "t" TaskStatus.failed "" 0 (some "boom"), by simp, rfl⟩

/-- C5: for every agent variant and every accumulated history (i.e.
after any sequence of executeTask calls, including the empty one), the
report satisfies totalTests = passedTests + failedTests, with
passedTests the count of COMPLETED results and failedTests the count of
the rest. -/
theorem agentReport_totals (k : AgentKind) (history : List TaskResult) :
    ((agentGenerateReport k history).totalTests =
        (agentGenerateReport k history).passedTests + (agentGenerateReport k history).failedTests)
  ∧ ((agentGenerateReport k history).passedTests =
        (history.filter (fun r => r.status == TaskStatus.completed)).length)
  ∧ ((agentGenerateReport k history).failedTests =
        (history.filter (fun r => !(r.status == TaskStatus.completed))).length) := by
  have hle := List.length_filter_le (fun r => r.status == TaskStatus.completed) history
  have hsub := length_sub_filter (fun r => r.status == TaskStatus.completed) history
  cases k <;>
    refine ⟨?_, rfl, hsub⟩ <;>
    · show history.length =
        (history.filter (fun r => r.status == TaskStatus.completed)).length +
          (history.length - (history.filter (fun r => r.status == TaskStatus.completed)).length)
      omega

/-- C7: the tracker sync inspects only FAILED results: with no FAILED
result it returns the "nothing to sync" message, otherwise the
"Mock: Synced N failed test(s)" message, and no count can make the two
message forms coincide. -/
theorem syncWithZephyrJira_spec (rs : List TaskResult) :
    ((rs.filter (fun r => r.status == TaskStatus.failed)).length = 0 →
        ReportGenerator.syncWithZephyrJira rs =
          "No issues to sync with Jira/Zephyr - all tests passed!")
  ∧ ((rs.filter (fun r => r.status == TaskStatus.failed)).length ≠ 0 →
        ReportGenerator.syncWithZephyrJira rs =
          "Mock: Synced " ++ Nat.repr (rs.filter (fun r => r.status == TaskStatus.failed)).length
            ++ " failed test(s) with Jira.")
  ∧ (∀ n : Nat,
        ("Mock: Synced " ++ Nat.repr n ++ " failed test(s) with Jira.") ≠
          "No issues to sync with Jira/Zephyr - all tests passed!") := by
  refine ⟨?_, ?_, fun n => syncMessage_ne (Nat.repr n) " failed test(s) with Jira."⟩
  · intro h
    simp [ReportGenerator.syncWithZephyrJira, h]
  · intro h
    simp [ReportGenerator.syncWithZephyrJira, h]

/-- Witness for C7: the empty list has no FAILED results and yields the
"nothing to sync" message. -/
theorem syncWithZephyrJira_spec_witness :
    ReportGenerator.syncWithZephyrJira [] =
      "No issues to sync with Jira/Zephyr - all tests passed!" :=
  (syncWithZephyrJira_spec []).1 rfl

/-- C8: `getTasksForEvent` is a function of the event's eventType alone
and maps every event — whatever its kind — to the one fixed
agent-to-task-list table. -/
theorem getTasksForEvent_fixed_table (e1 e2 : CIPipelineEvent) :
    (MCPAgentOrchestrator.getTasksForEvent e1 =
      [("api_agent", ["postman_tests", "api_validation"]),
       ("mobile_agent", ["appium_tests", "webdriver_tests"]),
       ("wiremock_agent", ["wiremock_tests", "wiremock_tests"])])
  ∧ MCPAgentOrchestrator.getTasksForEvent e1 = MCPAgentOrchestrator.getTasksForEvent e2 := by
  obtain ⟨et, ts, br, ch, au, md⟩ := e1
  obtain ⟨et2, ts2, br2, ch2, au2, md2⟩ := e2
  exact ⟨by cases et <;> rfl, by cases et <;> cases et2 <;> rfl⟩

/-- C9: for every agent variant, `generateReport` on an agent with no
executed tasks returns the all-zero report with an empty result list
(the agentType being the one the class registers). In the embedding
`generateReport` is a pure function of the history — the source body
only reads `this.testResults` — so repeated calls return the same
report and leave the history unchanged. -/
theorem generateReport_zero (k : AgentKind) :
    agentGenerateReport k [] =
      { agentType := agentTypeOf k, totalTests := 0, passedTests := 0,
        failedTests := 0, testResults := [] } := by
  cases k <;> rfl

theorem agentDispatch_recognized (k : AgentKind) (task : String) (run : TaskRun)
    (h : task ∈ recognizedTasks k) : agentDispatch k task run = run.outcome := by
  cases k
  case api =>
    simp only [recognizedTasks, List.mem_cons, List.not_mem_nil, or_false] at h
    rcases h with h | h <;> subst h <;> rfl
  case mobile =>
    simp only [recognizedTasks, List.mem_cons, List.not_mem_nil, or_false] at h
    rcases h with h | h <;> subst h <;> rfl
  case wiremock =>
    simp only [recognizedTasks, List.mem_cons, List.not_mem_nil, or_false] at h
    rcases h with h | h <;> subst h <;> rfl
  case headspin =>
    simp only [recognizedTasks, List.mem_cons, List.not_mem_nil, or_false] at h
    subst h; rfl

theorem agentDispatch_unknown (k : AgentKind) (task : String) (run : TaskRun)
    (h : task ∉ recognizedTasks k) :
    agentDispatch k task run = Except.error ("Unknown task: " ++ task) := by
  cases k
  case api =>
    simp only [recognizedTasks, List.mem_cons, List.not_mem_nil, or_false, not_or] at h
    show APIAgent.dispatch task run = _
    unfold APIAgent.dispatch
    split
    · exact absurd rfl h.1
    · exact absurd rfl h.2
    · rfl
  case mobile =>
    simp only [recognizedTasks, List.mem_cons, List.not_mem_nil, or_false, not_or] at h
    show MobileAgent.dispatch task run = _
    unfold MobileAgent.dispatch
    split
    · exact absurd rfl h.1
    · exact absurd rfl h.2
    · rfl
  case wiremock =>
    simp only [recognizedTasks, List.mem_cons, List.not_mem_nil, or_false, not_or] at h
    show WireMockAgent.dispatch task run = _
    unfold WireMockAgent.dispatch
    split
    · exact absurd rfl h.1
    · exact absurd rfl h.2
    · rfl
  case headspin =>
    simp only [recognizedTasks, List.mem_cons, List.not_mem_nil, or_false] at h
    show HeadSpinAgent.dispatch task run = _
    unfold HeadSpinAgent.dispatch
    split
    · exact absurd rfl h
    · rfl

/-- The common observable behavior of the four `executeTask` bodies as a
function of the dispatch result (MobileAgent's catch branch, which
re-reads the pushed element from the history, yields the same pair). -/
theorem agentExecuteTask_eq (k : AgentKind) (task : String) (run : TaskRun)
    (history : List TaskResult) :
    agentExecuteTask k task run history =
      match agentDispatch k task run with
      | Except.ok result =>
          (createTaskResult task TaskStatus.completed result run.elapsed none,
           history ++ [createTaskResult task TaskStatus.completed result run.elapsed none])
      | Except.error e =>
          (createTaskResult task TaskStatus.failed "" 0 (some e),
           history ++ [createTaskResult task TaskStatus.failed "" 0 (some e)]) := by
  cases k
  case api =>
    simp only [agentExecuteTask, agentDispatch]
    unfold APIAgent.executeTask
    cases APIAgent.dispatch task run <;> rfl
  case mobile =>
    simp only [agentExecuteTask, agentDispatch]
    unfold MobileAgent.executeTask
    cases MobileAgent.dispatch task run
    case error e => simp [List.getLastD_concat]
    case ok result => rfl
  case wiremock =>
    simp only [agentExecuteTask, agentDispatch]
    unfold WireMockAgent.executeTask
    cases WireMockAgent.dispatch task run <;> rfl
  case headspin =>
    simp only [agentExecuteTask, agentDispatch]
    unfold HeadSpinAgent.executeTask
    cases HeadSpinAgent.dispatch task run <;> rfl

/-- C2: for every agent variant, task name and execution environment,
`executeTask` resolves (the embedding is a total function) with a
TaskResult whose status is COMPLETED or FAILED, and an exception thrown
by a recognized task's body is converted into status FAILED with the
failure's message in the `error` field. -/
theorem executeTask_total (k : AgentKind) (task : String) (run : TaskRun)
    (history : List TaskResult) :
    ((agentExecuteTask k task run history).1.status = TaskStatus.completed ∨
     (agentExecuteTask k task run history).1.status = TaskStatus.failed)
  ∧ (∀ m, task ∈ recognizedTasks k → run.outcome = Except.error m →
      (agentExecuteTask k task run history).1.status = TaskStatus.failed ∧
      (agentExecuteTask k task run history).1.error = some m) := by
  constructor
  · rw [agentExecuteTask_eq]
    cases agentDispatch k task run
    case error e => exact Or.inr rfl
    case ok result => exact Or.inl rfl
  · intro m hrec hout
    rw [agentExecuteTask_eq, agentDispatch_recognized k task run hrec, hout]
    exact ⟨rfl, rfl⟩

/-- Witness for C2: the API agent with a postman_tests body that throws
"boom" resolves with a FAILED result carrying error "boom". -/
theorem executeTask_total_witness :
    (agentExecuteTask AgentKind.api "postman_tests" ⟨Except.error "boom", 0⟩ []).1.status
        = TaskStatus.failed
  ∧ (agentExecuteTask AgentKind.api "postman_tests" ⟨Except.error "boom", 0⟩ []).1.error
        = some "boom" :=
  (executeTask_total AgentKind.api "postman_tests" ⟨Except.error "boom", 0⟩ []).2 "boom"
    (by decide) rfl

/-- C3: for every agent variant and any task name outside its recognized
set, `executeTask` resolves with status FAILED and a present, non-empty
error message ("Unknown task: " + task). -/
theorem executeTask_unknownTask (k : AgentKind) (task : String) (run : TaskRun)
    (history : List TaskResult) (h : task ∉ recognizedTasks k) :
    (agentExecuteTask k task run history).1.status = TaskStatus.failed
  ∧ (agentExecuteTask k task run history).1.error = some ("Unknown task: " ++ task)
  ∧ ("Unknown task: " ++ task) ≠ "" := by
  rw [agentExecuteTask_eq, agentDispatch_unknown k task run h]
  exact ⟨rfl, rfl, unknownTask_ne_empty task⟩

/-- Witness for C3: the API agent rejects the unrecognized task name
"bogus_task" with a FAILED result and a non-empty error. -/
theorem executeTask_unknownTask_witness :
    (agentExecuteTask AgentKind.api "bogus_task" ⟨Except.ok "out", 0⟩ []).1.status
        = TaskStatus.failed
  ∧ (agentExecuteTask AgentKind.api "bogus_task" ⟨Except.ok "out", 0⟩ []).1.error
        = some ("Unknown task: " ++ "bogus_task")
  ∧ ("Unknown task: " ++ "bogus_task") ≠ "" :=
  executeTask_unknownTask AgentKind.api "bogus_task" ⟨Except.ok "out", 0⟩ [] (by decide)

/-- Counterexample to C6 as stated: the summary file name depends only
on the output directory and the observed `Date.now()` value, so two
calls within one process run that observe the same clock millisecond —
possible, since the awaited filesystem operations between them can
complete within the clock's resolution — return the same location even
for different inputs: the second write overwrites the first. -/
theorem generateAllureReport_collision :
    ReportGenerator.generateAllureReport [] "pipeline-reports"
        ⟨Except.ok (), Except.ok (), 0⟩ =
      Except.ok "pipeline-reports/allure-report-0.json"
  ∧ ReportGenerator.generateAllureReport
        [createTaskResult "t" TaskStatus.completed "out" 1 none] "pipeline-reports"
        ⟨Except.ok (), Except.ok (), 0⟩ =
      Except.ok "pipeline-reports/allure-report-0.json" :=
  ⟨rfl, rfl⟩

/-- C6 amended: two summary-writer calls produce distinct file locations
whenever they observe distinct `Date.now()` values (the name embeds the
timestamp, and decimal rendering is injective); every successful call
returns exactly the timestamped location; and the summary written for an
input list always has totalTests equal to that list's length. -/
theorem generateAllureReport_spec (dir : String) (n1 n2 : Nat) (hnow : n1 ≠ n2)
    (rs : List TaskResult) :
    ReportGenerator.allureFilePath dir n1 ≠ ReportGenerator.allureFilePath dir n2
  ∧ (ReportGenerator.allureSummaryData rs n1).totalTests = rs.length
  ∧ (∀ (m w : Except String Unit) (loc : String),
        ReportGenerator.generateAllureReport rs dir ⟨m, w, n1⟩ = Except.ok loc →
          loc = ReportGenerator.allureFilePath dir n1) := by
  refine ⟨?_, rfl, ?_⟩
  · intro hp
    apply hnow
    have h2 := congrArg String.data hp
    simp only [ReportGenerator.allureFilePath, String.data_append, List.append_assoc] at h2
    have h3 := List.append_cancel_left (List.append_cancel_left h2)
    have h4 := List.append_cancel_right h3
    have h5 := congrArg digitsVal h4
    rwa [digitsVal_repr, digitsVal_repr] at h5
  · intro m w loc hok
    cases m <;> cases w <;>
      simp [ReportGenerator.generateAllureReport] at hok
    exact hok.symm

/-- Witness for the amended C6 at concrete inputs: timestamps 0 and 1
give distinct locations, and the empty input list is summarized with
totalTests 0. -/
theorem generateAllureReport_spec_witness :
    ReportGenerator.allureFilePath "pipeline-reports" 0 ≠
        ReportGenerator.allureFilePath "pipeline-reports" 1
  ∧ (ReportGenerator.allureSummaryData [] 0).totalTests = 0 := by
  have h := generateAllureReport_spec "pipeline-reports" 0 1 (by decide) []
  exact ⟨h.1, h.2.1⟩

theorem agentExecuteTask_taskName (k : AgentKind) (task : String) (run : TaskRun)
    (history : List TaskResult) :
    (agentExecuteTask k task run history).1.taskName = task := by
  rw [agentExecuteTask_eq]
  cases agentDispatch k task run <;> rfl

theorem agentExecuteTask_terminal (k : AgentKind) (task : String) (run : TaskRun)
    (history : List TaskResult) :
    (agentExecuteTask k task run history).1.status = TaskStatus.completed ∨
    (agentExecuteTask k task run history).1.status = TaskStatus.failed := by
  rw [agentExecuteTask_eq]
  cases agentDispatch k task run
  case error e => exact Or.inr rfl
  case ok result => exact Or.inl rfl

/-- The agent names registered by the orchestrator constructor. -/
def registeredAgents : List String := ["api_agent", "mobile_agent", "wiremock_agent"]

theorem orchestratorStep_registered (agentName task : String) (run : TaskRun)
    (s : AgentsState) (h : agentName ∈ registeredAgents) :
    ∃ r s2, orchestratorStep agentName task run s = some (r, s2) ∧
      r.taskName = task ∧
      (r.status = TaskStatus.completed ∨ r.status = TaskStatus.failed) := by
  simp only [registeredAgents, List.mem_cons, List.not_mem_nil, or_false] at h
  rcases h with h | h | h <;> subst h
  · exact ⟨(APIAgent.executeTask task run s.apiResults).1, _, rfl,
      agentExecuteTask_taskName AgentKind.api task run s.apiResults,
      agentExecuteTask_terminal AgentKind.api task run s.apiResults⟩
  · exact ⟨(MobileAgent.executeTask task run s.mobileResults).1, _, rfl,
      agentExecuteTask_taskName AgentKind.mobile task run s.mobileResults,
      agentExecuteTask_terminal AgentKind.mobile task run s.mobileResults⟩
  · exact ⟨(WireMockAgent.executeTask task run s.wiremockResults).1, _, rfl,
      agentExecuteTask_taskName AgentKind.wiremock task run s.wiremockResults,
      agentExecuteTask_terminal AgentKind.wiremock task run s.wiremockResults⟩

theorem runAgentTasks_ok (agentName : String) (h : agentName ∈ registeredAgents)
    (tasks : List String) (runs : Nat → TaskRun) (idx : Nat) (s : AgentsState)
    (acc : List TaskResult) :
    ∃ newRs s2, runAgentTasks agentName tasks runs idx s acc =
        Except.ok (acc ++ newRs, s2, idx + tasks.length) ∧
      newRs.map (fun r => r.taskName) = tasks ∧
      (∀ r ∈ newRs, r.status = TaskStatus.completed ∨ r.status = TaskStatus.failed) := by
  induction tasks generalizing idx s acc with
  | nil => exact ⟨[], s, by simp [runAgentTasks], rfl, by simp⟩
  | cons task rest ih =>
    obtain ⟨r, s2, hstep, hname, hstat⟩ := orchestratorStep_registered agentName task (runs idx) s h
    obtain ⟨newRs, s3, hrun, hmap, hall⟩ := ih (idx + 1) s2 (acc ++ [r])
    refine ⟨r :: newRs, s3, ?_, ?_, ?_⟩
    · simp only [runAgentTasks, hstep]
      rw [hrun]
      simp only [List.append_assoc, List.singleton_append, List.length_cons,
        Except.ok.injEq, Prod.mk.injEq]
      exact ⟨trivial, trivial, by omega⟩
    · simp [hname, hmap]
    · intro r' hr'
      rcases List.mem_cons.mp hr' with h' | h'
      · subst h'; exact hstat
      · exact hall r' h'

theorem runTaskTable_ok (table : List (String × List String))
    (h : ∀ p ∈ table, p.1 ∈ registeredAgents) (runs : Nat → TaskRun) (idx : Nat)
    (s : AgentsState) (acc : List TaskResult) :
    ∃ newRs s2 idx2, runTaskTable table runs idx s acc = Except.ok (acc ++ newRs, s2, idx2) ∧
      newRs.map (fun r => r.taskName) = (table.map (fun p => p.2)).flatten ∧
      (∀ r ∈ newRs, r.status = TaskStatus.completed ∨ r.status = TaskStatus.failed) := by
  induction table generalizing idx s acc with
  | nil => exact ⟨[], s, idx, by simp [runTaskTable], rfl, by simp⟩
  | cons entry rest ih =>
    obtain ⟨agentName, tasks⟩ := entry
    obtain ⟨newRs1, s2, hrun1, hmap1, hall1⟩ :=
      runAgentTasks_ok agentName (h _ (List.mem_cons_self _ _)) tasks runs idx s acc
    obtain ⟨newRs2, s3, idx3, hrun2, hmap2, hall2⟩ :=
      ih (fun p hp => h p (List.mem_cons_of_mem _ hp)) (idx + tasks.length) s2 (acc ++ newRs1)
    refine ⟨newRs1 ++ newRs2, s3, idx3, ?_, ?_, ?_⟩
    · simp only [runTaskTable, hrun1]
      rw [hrun2]
      simp [List.append_assoc]
    · simp [hmap1, hmap2]
    · intro r' hr'
      rcases List.mem_append.mp hr' with h' | h'
      · exact hall1 r' h'
      · exact hall2 r' h'

/-- C10: any processEvent call that returns a PipelineResult dispatched
exactly six tasks in the fixed table order — api_agent: postman_tests,
api_validation; mobile_agent: appium_tests, webdriver_tests;
wiremock_agent: wiremock_tests twice — and taskResults lists them in
that execution order. -/
theorem processEvent_six_tasks (event : CIPipelineEvent) (env : OrchestratorEnv)
    (s0 : AgentsState) (res : PipelineResult)
    (hok : MCPAgentOrchestrator.processEvent event env s0 = Except.ok res) :
    res.taskResults.map (fun r => r.taskName) =
      ["postman_tests", "api_validation", "appium_tests", "webdriver_tests",
       "wiremock_tests", "wiremock_tests"]
  ∧ res.taskResults.length = 6 := by
  have htab : MCPAgentOrchestrator.getTasksForEvent event =
      [("api_agent", ["postman_tests", "api_validation"]),
       ("mobile_agent", ["appium_tests", "webdriver_tests"]),
       ("wiremock_agent", ["wiremock_tests", "wiremock_tests"])] := rfl
  obtain ⟨runs, fs⟩ := env
  obtain ⟨mk, wr, now⟩ := fs
  obtain ⟨newRs, s2, idx2, hrun, hmap, hterm⟩ :=
    runTaskTable_ok (MCPAgentOrchestrator.getTasksForEvent event)
      (by rw [htab]; decide) runs 0 s0 []
  rw [htab] at hmap
  simp only [MCPAgentOrchestrator.processEvent] at hok
  rw [hrun] at hok
  cases mk <;> cases wr <;>
    simp only [ReportGenerator.generateAllureReport, Except.ok.injEq] at hok
  · exact Except.noConfusion hok
  · exact Except.noConfusion hok
  · exact Except.noConfusion hok
  · subst hok
    refine ⟨?_, ?_⟩
    · show ([] ++ newRs).map (fun r : TaskResult => r.taskName) = _
      rw [List.nil_append, hmap]
      rfl
    · show ([] ++ newRs).length = 6
      rw [List.nil_append]
      have hlen := congrArg List.length hmap
      simpa using hlen

/-- A concrete CI event (the one the index.ts entry point constructs). -/
def sampleEvent : CIPipelineEvent :=
  ⟨EventType.ci_event, 0, "main", "123abc", "CI Bot", []⟩

/-- An environment in which every task body succeeds with output "ok"
measured at 1 second, and the report filesystem operations succeed with
the clock observed at 0. -/
def sampleEnv : OrchestratorEnv :=
  ⟨fun _ => ⟨Except.ok "ok", 1⟩, ⟨Except.ok (), Except.ok (), 0⟩⟩

/-- The six task results processEvent produces under `sampleEnv`. -/
def sampleResults : List TaskResult :=
  [createTaskResult "postman_tests" TaskStatus.completed "ok" 1 none,
   createTaskResult "api_validation" TaskStatus.completed "ok" 1 none,
   createTaskResult "appium_tests" TaskStatus.completed "ok" 1 none,
   createTaskResult "webdriver_tests" TaskStatus.completed "ok" 1 none,
   createTaskResult "wiremock_tests" TaskStatus.completed "ok" 1 none,
   createTaskResult "wiremock_tests" TaskStatus.completed "ok" 1 none]

/-- The PipelineResult processEvent returns under `sampleEnv` from a
fresh orchestrator. -/
def sampleResult : PipelineResult :=
  { event := sampleEvent
    taskResults := sampleResults
    agentReports :=
      [("api_agent", APIAgent.generateReport (sampleResults.take 2)),
       ("mobile_agent", MobileAgent.generateReport ((sampleResults.drop 2).take 2)),
       ("wiremock_agent", WireMockAgent.generateReport (sampleResults.drop 4))]
    generatedReports :=
      ["pipeline-reports/allure-report-0.json",
       "No issues to sync with Jira/Zephyr - all tests passed!"]
    pipelineStatus := "SUCCESS" }

/-- Witness for C10: under `sampleEnv` a fresh orchestrator returns
`sampleResult`, whose six task results carry the fixed task names in
order. -/
theorem processEvent_six_tasks_witness :
    sampleResult.taskResults.map (fun r => r.taskName) =
      ["postman_tests", "api_validation", "appium_tests", "webdriver_tests",
       "wiremock_tests", "wiremock_tests"]
  ∧ sampleResult.taskResults.length = 6 :=
  processEvent_six_tasks sampleEvent sampleEnv ⟨[], [], []⟩ sampleResult rfl

/-- Counterexample to C4 as stated ("processEvent never throws (never
rejects)"): with every task body succeeding but the report directory
creation failing (an EACCES rejection from fs.mkdir), the unguarded
report-generation step rejects the whole processEvent promise. -/
theorem processEvent_reportFailure :
    MCPAgentOrchestrator.processEvent
        ⟨EventType.ci_event, 0, "main", "123abc", "CI Bot", []⟩
        ⟨fun _ => ⟨Except.ok "ok", 1⟩,
         ⟨Except.error "EACCES: permission denied, mkdir", Except.ok (), 0⟩⟩
        ⟨[], [], []⟩ =
      Except.error "EACCES: permission denied, mkdir" := rfl

/-- C4 amended: provided the report-generation filesystem operations
succeed, processEvent resolves with an assembled PipelineResult for
every event and every combination of task-body outcomes — task-level
failures never reject the promise, and all six scheduled tasks still
run to a terminal COMPLETED/FAILED TaskResult (fail-soft). -/
theorem processEvent_failSoft (event : CIPipelineEvent) (runs : Nat → TaskRun)
    (now : Nat) (s0 : AgentsState) :
    ∃ res,
      MCPAgentOrchestrator.processEvent event
          ⟨runs, ⟨Except.ok (), Except.ok (), now⟩⟩ s0 = Except.ok res
      ∧ res.event = event
      ∧ res.taskResults.length = 6
      ∧ ∀ r ∈ res.taskResults,
          r.status = TaskStatus.completed ∨ r.status = TaskStatus.failed := by
  have htab : MCPAgentOrchestrator.getTasksForEvent event =
      [("api_agent", ["postman_tests", "api_validation"]),
       ("mobile_agent", ["appium_tests", "webdriver_tests"]),
       ("wiremock_agent", ["wiremock_tests", "wiremock_tests"])] := rfl
  obtain ⟨newRs, s2, idx2, hrun, hmap, hterm⟩ :=
    runTaskTable_ok (MCPAgentOrchestrator.getTasksForEvent event)
      (by rw [htab]; decide) runs 0 s0 []
  rw [htab] at hmap
  refine ⟨{ event := event
            taskResults := [] ++ newRs
            agentReports :=
              [("api_agent", APIAgent.generateReport s2.apiResults),
               ("mobile_agent", MobileAgent.generateReport s2.mobileResults),
               ("wiremock_agent", WireMockAgent.generateReport s2.wiremockResults)]
            generatedReports :=
              [ReportGenerator.allureFilePath "pipeline-reports" now,
               ReportGenerator.syncWithZephyrJira ([] ++ newRs)]
            pipelineStatus := MCPAgentOrchestrator.getPipelineStatus ([] ++ newRs) },
          ?_, rfl, ?_, ?_⟩
  · simp only [MCPAgentOrchestrator.processEvent]
    rw [hrun]
    rfl
  · show ([] ++ newRs).length = 6
    rw [List.nil_append]
    have hlen := congrArg List.length hmap
    simpa using hlen
  · show ∀ r ∈ ([] ++ newRs), _
    rw [List.nil_append]
    exact hterm
